import Mathlib

/-
Verification development for the ralloc memory-bookkeeping core.

The repository has two parallel designs of the bookkeeper:
  * src/src/bookkeeper.rs   (pool of Block values inside a growable Vec), and
  * src/src/block_list.rs   (an older, raw-pointer block list).
The namespace `Ralloc` below embeds src/src/bookkeeper.rs; the namespace
`Ralloc.BlockList` embeds the functions of src/src/block_list.rs that the
claims refer to (aligner, canonicalize_brk, alloc_fresh).

The Block value type itself lives in block.rs, which is not part of src/;
its operations are modelled from the spec (each such definition is marked
with a doc comment starting "Modelled from the spec:").  Machine addresses
and sizes are modelled as Nat: the program manipulates them only through
comparison, addition and (checked) subtraction, and no operation here
depends on wrap-around.
-/

set_option autoImplicit false

namespace Ralloc

/-- Modelled from the spec: block.rs is not under src/.  Per spec section 3,
a Block is a contiguous span of address space, a start address plus a byte
length; it is empty iff the size is zero. -/
structure Block where
  start : Nat
  size : Nat
  deriving DecidableEq, Repr, Inhabited

namespace Block

/-- Modelled from the spec: a block is empty iff its size is zero. -/
def is_empty (b : Block) : Bool :=
  b.size == 0

/-- Modelled from the spec: adjacency test, a block is left to another iff
its end address equals the other block's start address. -/
def left_to (l r : Block) : Bool :=
  l.start + l.size == r.start

/-- Modelled from the spec: split a block into the first n bytes and the
rest.  The source asserts n is at most the size; Nat subtraction makes the
definition total. -/
def split (b : Block) (n : Nat) : Block × Block :=
  (⟨b.start, n⟩, ⟨b.start + n, b.size - n⟩)

/-- Modelled from the spec: an empty block at the start address of the given
block (used by remove_at as the placeholder carrying the left address of the
right neighbor). -/
def empty_left (b : Block) : Block :=
  ⟨b.start, 0⟩

/-- Modelled from the spec: an empty block at the end address of the given
block (used by find_bound to search for the upper edge of a block). -/
def empty_right (b : Block) : Block :=
  ⟨b.start + b.size, 0⟩

/-- Modelled from the spec: split a block so that the second half starts at
the next multiple of the alignment; fails when the aligned offset exceeds
the block's size.  The padding needed to round a start address up to a
multiple of a is (a - start % a) % a; callers guarantee a positive
alignment. -/
def align (b : Block) (a : Nat) : Option (Block × Block) :=
  let k := (a - b.start % a) % a
  if k ≤ b.size then some (b.split k) else none

/-- Overlap of two spans, used to state claim C2: the spans share at least
one address. -/
def overlaps (x y : Block) : Bool :=
  decide (x.start < y.start + y.size) && decide (y.start < x.start + x.size)

end Block

/-- Elements required more than the length as capacity
(src/src/bookkeeper.rs, EXTRA_ELEMENTS). -/
def EXTRA_ELEMENTS : Nat := 2

/-- The memory bookkeeper of src/src/bookkeeper.rs: the pool of blocks held
in the internal Vec, together with that Vec's capacity.  The Vec itself
(vec.rs) is not under src/; it is a plain growable array whose push appends
one element, so the pool is modelled as a list plus a capacity counter. -/
structure Bookkeeper where
  pool : List Block
  cap : Nat
  deriving DecidableEq, Repr

/-- One step of the 2016 Rust core binary search over slices, which
bookkeeper.rs invokes through Vec's slice deref (`self.pool.binary_search`).
The slice halves at every step; the explicit fuel (always at least the
length plus one) makes the recursion structural.  Ordering of blocks is by
start address only (spec section 4.1), so the search key is the start
address.  `Ok(i)` and `Err(i)` are collapsed to the index, exactly as every
caller in bookkeeper.rs does. -/
def binSearchGo : Nat → List Block → Nat → Nat → Nat
  | 0, _, _, base => base
  | fuel + 1, s, target, base =>
    let half := s.length / 2
    match s.drop half with
    | [] => base
    | t :: rest =>
      if t.start < target then binSearchGo fuel rest target (base + half + 1)
      else if target < t.start then binSearchGo fuel (s.take half) target base
      else base + half

/-- Binary search of a start address in the pool, collapsing found and
insertion indices (bookkeeper.rs matches `Ok(x) | Err(x) => x`). -/
def binary_search (pool : List Block) (target : Nat) : Nat :=
  binSearchGo (pool.length + 1) pool target 0

/-- Bookkeeper::find (bookkeeper.rs): binary search for the block, then move
left past the run of empty blocks immediately preceding the found index. -/
def find (pool : List Block) (block : Block) : Nat :=
  let ind := binary_search pool block.start
  ind - ((pool.take ind).reverse.takeWhile Block.is_empty).length

/-- Bookkeeper::find_bound (bookkeeper.rs): like find, but also searches the
block's right edge (empty_right) and moves right past the run of empty
blocks there, producing the index range a merge must consider. -/
def find_bound (pool : List Block) (block : Block) : Nat × Nat :=
  let left0 := binary_search pool block.start
  let left := left0 - ((pool.take left0).reverse.takeWhile Block.is_empty).length
  let right0 := binary_search pool (Block.empty_right block).start
  let right := right0 + ((pool.drop right0).takeWhile Block.is_empty).length
  (left, right)

/-- One adjacent-pair condition of Bookkeeper::check (bookkeeper.rs): the
pair is sorted by start, non-empty blocks are not adjacent, and an empty
block has the same address as its right neighbor. -/
def checkPair (i next : Block) : Bool :=
  decide (i.start ≤ next.start) && (!(i.left_to next) || i.is_empty)
    && (!i.is_empty || i.start == next.start)

/-- The adjacent-pair conditions of Bookkeeper::check over the whole pool. -/
def checkAdj : List Block → Bool
  | a :: b :: t => checkPair a b && checkAdj (b :: t)
  | _ => true

/-- Bookkeeper::check (bookkeeper.rs): the consistency conditions asserted
in a debug build, as a boolean predicate: the pool is empty, or its last
entry is non-empty and every adjacent pair satisfies checkPair. -/
def check (pool : List Block) : Bool :=
  match pool.getLast? with
  | none => true
  | some last => !last.is_empty && checkAdj pool

/-- Allocator::reserve (bookkeeper.rs): when the capacity is below the
length plus EXTRA_ELEMENTS, or below min_cap, install the grown capacity
(min_cap + EXTRA_ELEMENTS) * 2 + 16 + 1.  In the source the growth branch
also obtains a new backing buffer through alloc_external (the external
breaker hook, declared but not implemented under src/), refills the Vec
(entries are copied unchanged) and frees the old buffer block back into the
pool; the buffer blocks' addresses come from outside src/, so only the
capacity change is modelled, and the theorems below use the growth branch
for its capacity arithmetic only. -/
def reserve (bk : Bookkeeper) (min_cap : Nat) : Bookkeeper :=
  if bk.cap < bk.pool.length + EXTRA_ELEMENTS ∨ bk.cap < min_cap then
    { bk with cap := (min_cap + EXTRA_ELEMENTS) * 2 + 16 + 1 }
  else bk

/-- Allocator::push (bookkeeper.rs): an empty block is dropped; otherwise
try to merge the block into the last entry (merge_right succeeds exactly on
adjacency), and if that fails reserve one more slot and append. -/
def push (bk : Bookkeeper) (block : Block) : Bookkeeper :=
  if block.is_empty then bk
  else
    match bk.pool.getLast? with
    | some x =>
      if x.left_to block then
        { bk with pool := bk.pool.dropLast ++ [⟨x.start, x.size + block.size⟩] }
      else
        let bk1 := reserve bk (bk.pool.length + 1)
        { bk1 with pool := bk1.pool ++ [block] }
    | none =>
      let bk1 := reserve bk (bk.pool.length + 1)
      { bk1 with pool := bk1.pool ++ [block] }

/-- Allocator::insert (bookkeeper.rs): reserve one more slot, locate the
nearest empty entry at or after ind (defaulting to the pool's end), push one
extra element, memmove the n entries in [ind, ind + n) one slot to the
right, and write the block at ind.  The extra element pushed is
`mem::uninitialized()`: its residual value is unconstrained, so the
embedding takes it as the parameter junk.  When the located gap is interior
(n < length - ind) the memmove does not reach the pushed slot, which is
exactly the behavior claims C1-C3 are about. -/
def insert (junk : Block) (bk : Bookkeeper) (ind : Nat) (block : Block) : Bookkeeper :=
  let bk1 := reserve bk (bk.pool.length + 1)
  let n := ((bk1.pool.drop ind).findIdx? Block.is_empty).getD (bk1.pool.length - ind)
  let extended := bk1.pool ++ [junk]
  { bk1 with
    pool := bk1.pool.take ind ++ block ::
      ((bk1.pool.drop ind).take n ++ extended.drop (ind + n + 1)) }

/-- Allocator::remove_at (bookkeeper.rs): removing the last entry pops it
and truncates the trailing run of empty blocks; removing an interior entry
replaces it by an empty placeholder at the right neighbor's start address
and rewrites the run of already-empty entries just below it to that same
placeholder. -/
def remove_at (bk : Bookkeeper) (ind : Nat) : Block × Bookkeeper :=
  if ind == bk.pool.length - 1 then
    let res := bk.pool.getD ind default
    let kept := bk.pool.take ind
    (res, { bk with
      pool := kept.take (kept.length - (kept.reverse.takeWhile Block.is_empty).length) })
  else
    let e := Block.empty_left (bk.pool.getD (ind + 1) default)
    let res := bk.pool.getD ind default
    let kept := bk.pool.take ind
    let run := (kept.reverse.takeWhile Block.is_empty).length
    (res, { bk with
      pool := kept.take (kept.length - run) ++ List.replicate run e
        ++ e :: bk.pool.drop (ind + 1) })

/-- Allocator::free_bound (bookkeeper.rs): an empty block is a no-op; a
bound starting at the pool's length is pushed; otherwise try to merge with
the entry at the right edge of the bound (removing it), then with the left
neighbor, and fall back to insert at the bound's start.  merge_right
succeeds exactly on adjacency (left_to). -/
def free_bound (junk : Block) (bk : Bookkeeper) (ind : Nat × Nat) (block : Block) :
    Bookkeeper :=
  if block.is_empty then bk
  else if ind.1 == bk.pool.length then push bk block
  else if ind.2 < bk.pool.length && block.left_to (bk.pool.getD ind.2 default) then
    let r := remove_at bk ind.2
    let merged : Block := ⟨block.start, block.size + r.1.size⟩
    let bk1 := r.2
    let prev := bk1.pool.getD (ind.1 - 1) default
    if ind.1 != 0 && prev.left_to merged then
      { bk1 with pool := bk1.pool.set (ind.1 - 1) ⟨prev.start, prev.size + merged.size⟩ }
    else insert junk bk1 ind.1 merged
  else
    let prev := bk.pool.getD (ind.1 - 1) default
    if ind.1 != 0 && prev.left_to block then
      { bk with pool := bk.pool.set (ind.1 - 1) ⟨prev.start, prev.size + block.size⟩ }
    else insert junk bk ind.1 block

/-- Allocator::free (bookkeeper.rs): find the bound of the block and free it
there. -/
def free (junk : Block) (bk : Bookkeeper) (block : Block) : Bookkeeper :=
  free_bound junk bk (find_bound bk.pool block) block

/-- The scan inside Allocator::alloc (bookkeeper.rs): the first entry whose
size is at least the request and whose alignment split leaves a second half
of at least the requested size.  For entries where the split's second half
is too small the source merges the halves back, restoring the entry exactly,
so the scan has no net effect on them.  Returns the index, the gap half a
and the usable half b. -/
def allocScan : List Block → Nat → Nat → Nat → Option (Nat × Block × Block)
  | [], _, _, _ => none
  | i :: rest, size, al, n =>
    if size ≤ i.size then
      match i.align al with
      | some (a, b) =>
        if size ≤ b.size then some (n, a, b) else allocScan rest size al (n + 1)
      | none => allocScan rest size al (n + 1)
    else allocScan rest size al (n + 1)

/-- Allocator::alloc (bookkeeper.rs): scan for a fitting entry; overwrite it
with the gap half, remove it if the gap is empty, split the usable half at
the requested size, and free the excessive part at its found bound.  The
returned block is the head of that split.  When no entry fits the source
delegates to alloc_external (the external breaker hook, not under src/),
modelled as none. -/
def alloc (junk : Block) (bk : Bookkeeper) (size al : Nat) :
    Option (Block × Bookkeeper) :=
  match allocScan bk.pool size al 0 with
  | some (n, a, b) =>
    let bk1 := { bk with pool := bk.pool.set n a }
    let bk2 := if a.is_empty then (remove_at bk1 n).2 else bk1
    let p := b.split size
    let bound := find_bound bk2.pool p.2
    some (p.1, free_bound junk bk2 bound p.2)
  | none => none

/-- The growth test inside Allocator::realloc_inplace_bound
(bookkeeper.rs): the entry at the bound's right edge exists, is large enough
together with the block, and the block is adjacent to it on the left. -/
def mergable (bk : Bookkeeper) (ind : Nat × Nat) (block : Block) (new_size : Nat) :
    Bool :=
  match bk.pool.get? ind.2 with
  | some entry => decide (new_size ≤ entry.size + block.size) && block.left_to entry
  | none => false

/-- Allocator::realloc_inplace_bound (bookkeeper.rs), continued: shrinking
splits the block and frees the tail at the given bound, always returning Ok
of the head; growing succeeds only in the mergable case, otherwise Err of
the untouched block with the pool untouched. -/
def realloc_inplace_bound (junk : Block) (bk : Bookkeeper) (ind : Nat × Nat)
    (block : Block) (new_size : Nat) : Except Block Block × Bookkeeper :=
  if new_size ≤ block.size then
    (Except.ok (block.split new_size).1,
     free_bound junk bk ind (block.split new_size).2)
  else
    if mergable bk ind block new_size then
      let r := remove_at bk ind.2
      let merged : Block := ⟨block.start, block.size + r.1.size⟩
      let p := merged.split new_size
      let bk1 := r.2
      let bk2 :=
        if ind.1 == bk1.pool.length then push bk1 p.2
        else if !p.2.is_empty then { bk1 with pool := bk1.pool.set ind.1 p.2 }
        else bk1
      (Except.ok p.1, bk2)
    else (Except.error block, bk)

/-- Allocator::realloc_inplace (bookkeeper.rs): find the block's bound and
reallocate in place there. -/
def realloc_inplace (junk : Block) (bk : Bookkeeper) (block : Block) (new_size : Nat) :
    Except Block Block × Bookkeeper :=
  realloc_inplace_bound junk bk (find_bound bk.pool block) block new_size

namespace BlockList

/-- Calculate the aligner (src/src/block_list.rs): what is added to a
pointer to align it to a given value. -/
def aligner (ptr al : Nat) : Nat :=
  al - ptr % al

/-- Canonicalize a BRK request (src/src/block_list.rs): request more memory
than necessary to amortize syscalls, with multiplier 1, floor 200 and extra
cap 500. -/
def canonicalize_brk (size : Nat) : Nat :=
  max 200 (size + min (1 * size) 500)

/-- The number of bytes Bookkeeper::alloc_fresh (src/src/block_list.rs)
requests from the breaker: the canonical size plus the aligner of the
current segment end. -/
def alloc_fresh_brk (size al seg_end : Nat) : Nat :=
  canonicalize_brk size + aligner seg_end al

/-- The block Bookkeeper::alloc_fresh returns: it starts at the end of the
alignment block, i.e. at the old segment end plus the aligner. -/
def alloc_fresh_res (size al seg_end : Nat) : Block :=
  ⟨seg_end + aligner seg_end al, size⟩

/-- The two blocks Bookkeeper::alloc_fresh pushes onto the block list: the
alignment block at the old segment end, and the extra block covering the
canonical surplus behind the returned block. -/
def alloc_fresh_pushed (size al seg_end : Nat) : List Block :=
  [⟨seg_end, aligner seg_end al⟩,
   ⟨seg_end + aligner seg_end al + size, canonicalize_brk size - size⟩]

end BlockList

/-- A pool of three separated non-empty free blocks, satisfying every
consistency condition of Bookkeeper::check. -/
def poolA : List Block := [⟨0, 5⟩, ⟨10, 5⟩, ⟨30, 5⟩]

/-- The pool produced from poolA by freeing the block at addresses 5..10:
both merges fire, and remove_at leaves the interior empty placeholder at
address 30.  It still satisfies every consistency condition of
Bookkeeper::check. -/
def poolB : List Block := [⟨0, 15⟩, ⟨30, 0⟩, ⟨30, 5⟩]

/-- Claim C1: after every public operation (allocate, free, reallocate)
called with valid arguments, the Pool satisfies the structural invariants
(sorted, non-empty entries neither overlapping nor adjacent, empty entries
sharing their right neighbor's address, last entry non-empty).  The code
violates this: freeing the disjoint block 20..25 into poolB (reached from
poolA by one valid free, and itself passing check) takes insert's
interior-gap path, which still pushes one uninitialized element, so the pool
ends with four entries whose last one is residual junk; with a zeroed
residual the code's own check fails. -/
theorem free_junk_breaks_check :
    check poolA = true ∧
    free ⟨0, 0⟩ ⟨poolA, 9⟩ ⟨5, 5⟩ = ⟨poolB, 9⟩ ∧
    check poolB = true ∧
    (free ⟨0, 0⟩ ⟨poolB, 9⟩ ⟨20, 5⟩).pool = [⟨0, 15⟩, ⟨20, 5⟩, ⟨30, 5⟩, ⟨0, 0⟩] ∧
    check (free ⟨0, 0⟩ ⟨poolB, 9⟩ ⟨20, 5⟩).pool = false := by decide

/-- Claim C2: when allocate finds a fitting entry it returns a block of
exactly the requested size, aligned as requested, overlapping no entry
remaining in the Pool.  The code violates the overlap part: allocating 5
bytes from poolB returns the exact-size, aligned block 0..5, but the
excessive part is freed through insert's interior-gap path, which pushes one
uninitialized element; the residual value 0..7 remains in the pool and
overlaps the returned block. -/
theorem alloc_junk_overlaps_result :
    check poolB = true ∧
    alloc ⟨0, 7⟩ ⟨poolB, 9⟩ 5 1 =
      some (⟨0, 5⟩, ⟨[⟨5, 10⟩, ⟨30, 0⟩, ⟨30, 5⟩, ⟨0, 7⟩], 9⟩) ∧
    (⟨0, 5⟩ : Block).size = 5 ∧ (⟨0, 5⟩ : Block).start % 1 = 0 ∧
    Block.overlaps ⟨0, 5⟩ ⟨0, 7⟩ = true := by decide

/-- Claim C3: insert(ind, b) with ind = find(b) and b non-empty shifts only
up to the nearest empty entry, consuming that placeholder, grows only when
no empty entry exists, and leaves the pool holding exactly the old non-empty
entries plus b.  The code violates this: inserting 20..25 at its find index
1 in poolB does consume the empty placeholder, but still pushes one extra
element, so for every residual value junk the pool ends with four entries,
the last being junk - one entry more than the old non-empty entries plus
b. -/
theorem insert_always_extends_pool (junk : Block) :
    find poolB ⟨20, 5⟩ = 1 ∧
    Block.is_empty ⟨20, 5⟩ = false ∧
    insert junk ⟨poolB, 9⟩ 1 ⟨20, 5⟩ = ⟨[⟨0, 15⟩, ⟨20, 5⟩, ⟨30, 5⟩, junk], 9⟩ := by
  refine ⟨by decide, by decide, ?_⟩
  rfl

/-- Witness for insert_always_extends_pool at a zeroed residual value. -/
theorem insert_always_extends_pool_witness :
    insert ⟨0, 0⟩ ⟨poolB, 9⟩ 1 ⟨20, 5⟩ = ⟨[⟨0, 15⟩, ⟨20, 5⟩, ⟨30, 5⟩, ⟨0, 0⟩], 9⟩ :=
  (insert_always_extends_pool ⟨0, 0⟩).2.2

/-- Claim C9: freeing a block of size zero is a no-op, leaving the Pool
entirely unchanged. -/
theorem free_empty_block_noop (junk : Block) (bk : Bookkeeper) (block : Block)
    (h : block.size = 0) : free junk bk block = bk := by
  unfold free free_bound
  simp [Block.is_empty, h]

/-- Witness for free_empty_block_noop at a concrete pool and zero-sized
block. -/
theorem free_empty_block_noop_witness :
    free ⟨1, 1⟩ ⟨[⟨5, 5⟩], 9⟩ ⟨2, 0⟩ = ⟨[⟨5, 5⟩], 9⟩ :=
  free_empty_block_noop ⟨1, 1⟩ ⟨[⟨5, 5⟩], 9⟩ ⟨2, 0⟩ rfl

/-- Claim C10: freeing a non-empty block into an empty Pool (with the
capacity the constructor requires) leaves the Pool holding exactly that one
block. -/
theorem free_into_empty_pool (junk : Block) (c : Nat) (block : Block)
    (h : block.size ≠ 0) (hc : EXTRA_ELEMENTS ≤ c) :
    free junk ⟨[], c⟩ block = ⟨[block], c⟩ := by
  have hcond : ¬(c < EXTRA_ELEMENTS ∨ c = 0) := by
    unfold EXTRA_ELEMENTS at hc ⊢
    omega
  unfold free find_bound binary_search binSearchGo free_bound push reserve
  simp [Block.is_empty, h, hcond]

/-- Witness for free_into_empty_pool at a concrete block and capacity. -/
theorem free_into_empty_pool_witness :
    free ⟨0, 0⟩ ⟨[], 2⟩ ⟨7, 3⟩ = ⟨[⟨7, 3⟩], 2⟩ :=
  free_into_empty_pool ⟨0, 0⟩ 2 ⟨7, 3⟩ (by decide) (by decide)

/-- Claim C4 is false as stated: it says aligner(p, a) is the smallest
non-negative padding, zero when p is already a multiple of a, and always
below a.  At p = 4, a = 4 the code computes a - p % a = 4: not zero although
4 is a multiple of 4, and not below 4. -/
theorem aligner_at_multiple_not_zero :
    (4 : Nat) % 4 = 0 ∧ BlockList.aligner 4 4 ≠ 0 ∧
    ¬(BlockList.aligner 4 4 < 4) := by decide

/-- Claim C4 as amended: for every pointer p and alignment a of at least 1,
aligner(p, a) = a - p % a is the smallest positive k such that p + k is a
multiple of a; it satisfies 1 ≤ aligner(p, a) ≤ a, and equals a (not 0)
exactly when p is already a multiple of a. -/
theorem aligner_smallest_positive (p a : Nat) (ha : 0 < a) :
    (p + BlockList.aligner p a) % a = 0 ∧
    0 < BlockList.aligner p a ∧
    BlockList.aligner p a ≤ a ∧
    (BlockList.aligner p a = a ↔ p % a = 0) ∧
    ∀ k, 0 < k → (p + k) % a = 0 → BlockList.aligner p a ≤ k := by
  unfold BlockList.aligner
  have hr : p % a < a := Nat.mod_lt _ ha
  have hle : p % a ≤ p := Nat.mod_le p a
  refine ⟨?_, by omega, by omega, by omega, ?_⟩
  · have h1 : p + (a - p % a) = (p - p % a) + a := by omega
    have h2 : p - p % a = a * (p / a) := by
      have := Nat.div_add_mod p a
      omega
    rw [h1, Nat.add_mod_right, h2]
    exact Nat.mul_mod_right a _
  · intro k hk hmod
    by_contra hlt
    push_neg at hlt
    have h3 : (p + k) % a = p % a + k := by
      rw [Nat.add_mod, Nat.mod_eq_of_lt (show k < a by omega),
        Nat.mod_eq_of_lt (show p % a + k < a by omega)]
    omega

/-- Witness for aligner_smallest_positive at p = 5, a = 4, where the padding
is 3. -/
theorem aligner_smallest_positive_witness :
    (0 : Nat) < 4 ∧ (5 + BlockList.aligner 5 4) % 4 = 0 :=
  ⟨by decide, (aligner_smallest_positive 5 4 (by decide)).1⟩

/-- Claim C5 is false as stated: it says a first-ever allocate(100, 1)
triggers a breaker request of exactly 200 bytes and the surplus becomes one
free entry.  With segment end 0, alloc_fresh requests canonicalize_brk(100)
plus aligner(0, 1) = 200 + 1 = 201 bytes, and records the surplus by pushing
two blocks, the alignment block and the extra block. -/
theorem alloc_fresh_brk_not_canonical :
    BlockList.alloc_fresh_brk 100 1 0 ≠ 200 ∧
    BlockList.alloc_fresh_brk 100 1 0 = 201 ∧
    (BlockList.alloc_fresh_pushed 100 1 0).length ≠ 1 := by decide

/-- Claim C5 as amended: the breaker request of a fresh allocation is
canonicalize_brk(size) + aligner(segment end, align), where
canonicalize_brk(size) = max(200, size + min(1 * size, 500)); a first-ever
allocate(100, 1) therefore requests 201 bytes for every segment end, returns
the 100-byte block right after the 1-byte alignment padding, and records the
surplus as two pushed blocks: the alignment block and the 100-byte extra
block. -/
theorem alloc_fresh_request_and_surplus (seg_end : Nat) :
    BlockList.canonicalize_brk 100 = 200 ∧
    BlockList.alloc_fresh_brk 100 1 seg_end =
      BlockList.canonicalize_brk 100 + BlockList.aligner seg_end 1 ∧
    BlockList.alloc_fresh_brk 100 1 seg_end = 201 ∧
    BlockList.alloc_fresh_res 100 1 seg_end = ⟨seg_end + 1, 100⟩ ∧
    BlockList.alloc_fresh_pushed 100 1 seg_end =
      [⟨seg_end, 1⟩, ⟨seg_end + 1 + 100, 100⟩] := by
  unfold BlockList.alloc_fresh_brk BlockList.alloc_fresh_res
    BlockList.alloc_fresh_pushed BlockList.aligner BlockList.canonicalize_brk
  simp [Nat.mod_one]

/-- Witness for alloc_fresh_request_and_surplus at segment end 0. -/
theorem alloc_fresh_request_and_surplus_witness :
    BlockList.alloc_fresh_brk 100 1 0 = 201 :=
  (alloc_fresh_request_and_surplus 0).2.2.1

/-- Claim C6: realloc_inplace with a new size at most the block's size
always succeeds, returning Ok of the block with the same start and the new
size; and whenever it fails it returns Err of the original block untouched
with the pool state unmodified. -/
theorem realloc_inplace_shrink_and_failure (junk : Block) (bk : Bookkeeper)
    (block : Block) (new_size : Nat) :
    (new_size ≤ block.size →
      (realloc_inplace junk bk block new_size).1 = Except.ok ⟨block.start, new_size⟩) ∧
    (∀ b2, (realloc_inplace junk bk block new_size).1 = Except.error b2 →
      b2 = block ∧ (realloc_inplace junk bk block new_size).2 = bk) := by
  unfold realloc_inplace realloc_inplace_bound
  by_cases h1 : new_size ≤ block.size
  · rw [if_pos h1]
    exact ⟨fun _ => rfl, fun b2 hb => Except.noConfusion hb⟩
  · rw [if_neg h1]
    refine ⟨fun h => absurd h h1, ?_⟩
    by_cases h2 : mergable bk (find_bound bk.pool block) block new_size = true
    · rw [if_pos h2]
      exact fun b2 hb => Except.noConfusion hb
    · rw [if_neg h2]
      intro b2 hb
      exact ⟨(Except.error.inj hb).symm, rfl⟩

/-- Witness for realloc_inplace_shrink_and_failure: shrinking the block
50..60 to 4 bytes over a concrete pool returns Ok of 50..54. -/
theorem realloc_inplace_shrink_and_failure_witness :
    (4 : Nat) ≤ 10 ∧
    (realloc_inplace ⟨0, 0⟩ ⟨[⟨0, 15⟩], 9⟩ ⟨50, 10⟩ 4).1 = Except.ok ⟨50, 4⟩ :=
  ⟨by decide,
   (realloc_inplace_shrink_and_failure ⟨0, 0⟩ ⟨[⟨0, 15⟩], 9⟩ ⟨50, 10⟩ 4).1 (by decide)⟩

/-- Claim C7 is false as stated: it says the capacity exceeds the length by
at least two before and after every public operation.  A bookkeeper with
empty pool and capacity 2 (exactly what the constructor requires) satisfies
the headroom, but freeing one block pushes without growing, since reserve
only grows when the headroom is already missing at its entry, leaving
capacity 2 with length 1. -/
theorem headroom_violated_after_free :
    ([] : List Block).length + EXTRA_ELEMENTS ≤ 2 ∧
    (free ⟨0, 0⟩ ⟨[], 2⟩ ⟨0, 5⟩).cap <
      (free ⟨0, 0⟩ ⟨[], 2⟩ ⟨0, 5⟩).pool.length + EXTRA_ELEMENTS := by decide

/-- Claim C7 as amended: the two-entry headroom is re-established at every
return of reserve (called before each push), which guarantees capacity at
least max(min_cap, length + EXTRA_ELEMENTS) whenever min_cap exceeds the
length; after the single push that follows, the capacity may exceed the
length by only one. -/
theorem reserve_restores_headroom (bk : Bookkeeper) (min_cap : Nat)
    (h : bk.pool.length < min_cap) :
    (reserve bk min_cap).pool.length + EXTRA_ELEMENTS ≤ (reserve bk min_cap).cap ∧
    min_cap ≤ (reserve bk min_cap).cap ∧
    (reserve bk min_cap).pool = bk.pool := by
  unfold reserve
  split
  · unfold EXTRA_ELEMENTS
    refine ⟨by simp; omega, by simp; omega, rfl⟩
  · next hneg =>
    push_neg at hneg
    unfold EXTRA_ELEMENTS at *
    exact ⟨by omega, by omega, rfl⟩

/-- Witness for reserve_restores_headroom at a concrete bookkeeper with no
headroom left. -/
theorem reserve_restores_headroom_witness :
    ((⟨[⟨0, 5⟩], 1⟩ : Bookkeeper)).pool.length < 2 ∧
    (reserve ⟨[⟨0, 5⟩], 1⟩ 2).pool.length + EXTRA_ELEMENTS ≤ (reserve ⟨[⟨0, 5⟩], 1⟩ 2).cap :=
  ⟨by decide, (reserve_restores_headroom ⟨[⟨0, 5⟩], 1⟩ 2 (by decide)).1⟩

/-- Claim C8: within one top-level operation the growth path runs at most
once.  A reserve call that grows (every call site passes min_cap =
length + 1) installs capacity (length + 1 + EXTRA_ELEMENTS) * 2 + 16 + 1;
under that capacity, every later reserve call in the same operation - the
recursive free of the old buffer inside reserve itself runs at the original
length, and a single operation pushes only a bounded handful of entries
(allowing any sixteen here) - finds the headroom intact and is a no-op, so
no second growth occurs. -/
theorem reserve_no_second_growth (bk bk2 : Bookkeeper)
    (hgrow : (reserve bk (bk.pool.length + 1)).cap ≠ bk.cap)
    (hcap : bk2.cap = (reserve bk (bk.pool.length + 1)).cap)
    (hlen : bk2.pool.length ≤ bk.pool.length + 16) :
    reserve bk2 (bk2.pool.length + 1) = bk2 := by
  have hc : bk2.cap = (bk.pool.length + 1 + EXTRA_ELEMENTS) * 2 + 16 + 1 := by
    by_cases h : bk.cap < bk.pool.length + EXTRA_ELEMENTS ∨ bk.cap < bk.pool.length + 1
    · unfold reserve at hcap
      rw [if_pos h] at hcap
      exact hcap
    · unfold reserve at hgrow
      rw [if_neg h] at hgrow
      exact absurd rfl hgrow
  unfold reserve
  rw [if_neg]
  unfold EXTRA_ELEMENTS at hc ⊢
  omega

/-- Witness for reserve_no_second_growth: after the growth from capacity 1
at length 1 installs capacity 25, a reserve at length 2 changes nothing. -/
theorem reserve_no_second_growth_witness :
    reserve ⟨[⟨0, 5⟩, ⟨9, 5⟩], 25⟩ 3 = ⟨[⟨0, 5⟩, ⟨9, 5⟩], 25⟩ :=
  reserve_no_second_growth ⟨[⟨0, 5⟩], 1⟩ ⟨[⟨0, 5⟩, ⟨9, 5⟩], 25⟩
    (by decide) (by decide) (by decide)

end Ralloc
